import Mathlib

/-!
Shallow embedding of the MDB (Multi-Drop Bus) master driver:
the 9-bit link layer (`src/lib.rs`), the cashless-device poll-reply
length table (`src/cashless_device.rs`) and the coin-acceptor protocol
(`src/coin_acceptor.rs`).

Machine integers are modelled as `Nat` with explicit `% 256` / `% 65536`
where the Rust code wraps (`wrapping_add`, `as u8` casts, `u8` shifts).
The 9-bit UART presents each logical wire byte as two physical bytes,
mode byte (`0x00`/`0x01`) first, then the data byte.  On the send side
the code writes such pairs, so `send_data` returns a list of
`(mode, value)` pairs; on the receive side the code iterates over the raw
physical bytes one by one, so `receive_response` takes the flat physical
byte list exactly as `uart.read` delivers it.  Checked Rust arithmetic
that panics (division by zero, `u16` over/underflow in debug profile) is
modelled by `Except` with an explicit error value.
-/

/-- `MDBStatus` from `src/lib.rs` (`ACK = 0x00`, `NAK = 0xFF`, `RET = 0xAA`,
plus the four local-only pseudo-statuses). -/
inductive MDBStatus where
  | ack
  | nak
  | ret
  | noReply
  | checksumErr
  | bufOverflow
  | invalid
deriving DecidableEq, Repr

/-- `MDBResponse<usize, MDBStatus>` from `src/lib.rs`, specialised the way
`receive_response` returns it: `Data` carries the number of payload bytes
written to the caller's buffer. -/
inductive MDBResp where
  | data (n : Nat)
  | statusMsg (s : MDBStatus)
deriving DecidableEq, Repr

/-- `Mdb::send_status_message` (`src/lib.rs` lines 158-168): ACK/NAK/RET are
sent as a single logical byte with mode bit low and no checksum; any other
status is rejected locally (nothing is transmitted). -/
def send_status_message : MDBStatus → List (Nat × Nat)
  | .ack => [(0, 0x00)]
  | .nak => [(0, 0xFF)]
  | .ret => [(0, 0xAA)]
  | _ => []

/-- Helper for `send_data` (`src/lib.rs` lines 135-156): walks the payload
with the `is_first_byte` flag and the running `wrapping_add` checksum, and
finally appends the checksum byte with mode bit low. -/
def send_data_go (first : Bool) (chk : Nat) : List Nat → List (Nat × Nat)
  | [] => [(0, chk)]
  | b :: rest => ((if first then 1 else 0), b) :: send_data_go false ((chk + b) % 256) rest

/-- `Mdb::send_data` (`src/lib.rs` lines 135-156): transmit the payload,
first byte with mode bit 1, the rest with mode bit 0, then one checksum
byte (8-bit wrapping sum of the payload) with mode bit 0.  The result is
the list of `(mode, value)` logical bytes put on the wire. -/
def send_data (msg : List Nat) : List (Nat × Nat) :=
  send_data_go true 0 msg

/-- Outcome of `Mdb::receive_response`: the returned token, the payload
bytes written into the caller's buffer, and the logical bytes the master
transmitted in reaction (its ACK after a good data frame). -/
structure RecvResult where
  resp : MDBResp
  buf : List Nat
  sent : List (Nat × Nat)
deriving DecidableEq, Repr

/-- The `enumn`-derived `MDBStatus::n` conversion from the discriminant
values declared in `src/lib.rs` lines 10-18. -/
def mdb_status_n (b : Nat) : Option MDBStatus :=
  match b with
  | 0x00 => some .ack
  | 0xFF => some .nak
  | 0xAA => some .ret
  | 0x01 => some .noReply
  | 0x02 => some .checksumErr
  | 0x03 => some .bufOverflow
  | 0x04 => some .invalid
  | _ => none

/-- Per-physical-byte loop of `Mdb::receive_response` (`src/lib.rs` lines
53-132).  The input is the raw physical byte stream as one `uart.read`
chunk delivers it (mode byte, data byte, mode byte, …); `top` is the
source's `top_byte` parity flag, `chk` the running `wrapping_add`
checksum, `acc` the bytes written to the caller's buffer of length `cap`,
and an exhausted stream is the 50 ms timeout (`NoReply`).  Lines 62-74
only toggle `top_byte` and set `end_of_message` when a mode byte equals
`0x01`; the `if !end_of_message` block (lines 75-89) then runs for the
CURRENT byte whatever its parity, so mode bytes too are bounds-checked,
written to the buffer, counted in `bytes_out` and summed into the
checksum.  When the `0x01` mode byte arrives, the `else` branch (lines
90-124) runs on that very mode byte: with no bytes buffered it feeds
`0x01` to `MDBStatus::n` (giving `NoReply`, neither ACK nor NAK, hence
`Invalid`), otherwise it compares `0x01` against the running checksum,
ACKing and returning `Data(bytes_out)` on a match and `ChecksumErr`
otherwise — the frame's actual checksum byte, which follows the `0x01`
mode byte, is never read.  (Chunk boundaries, which would reset `top_byte`
and exercise the `offset += count` bookkeeping, do not arise in this
single-chunk schedule.) -/
def receive_response_go (cap chk : Nat) (acc : List Nat) (top : Bool) :
    List Nat → RecvResult
  | [] => ⟨.statusMsg .noReply, acc, []⟩
  | i :: rest =>
    if top ∧ i = 0x01 then
      if acc.length = 0 then
        match mdb_status_n i with
        | some .ack => ⟨.statusMsg .ack, acc, []⟩
        | some .nak => ⟨.statusMsg .nak, acc, []⟩
        | _ => ⟨.statusMsg .invalid, acc, []⟩
      else
        if i = chk then ⟨.data acc.length, acc, send_status_message .ack⟩
        else ⟨.statusMsg .checksumErr, acc, []⟩
    else
      if acc.length = cap then ⟨.statusMsg .bufOverflow, acc, []⟩
      else receive_response_go cap ((chk + i) % 256) (acc ++ [i]) (!top) rest

/-- `Mdb::receive_response` (`src/lib.rs` lines 39-133) on the physical
byte stream of a reply, for a caller buffer of `cap` bytes: `top_byte`
starts true, the checksum and `bytes_out` start at zero. -/
def receive_response (cap : Nat) (wire : List Nat) : RecvResult :=
  receive_response_go cap 0 [] true wire

/-- `CashlessDeviceFeatureLevel` from `src/cashless_device.rs`. -/
inductive CashlessDeviceFeatureLevel where
  | level1
  | level2
  | level3
deriving DecidableEq, Repr

/-- `CashlessDevice::poll_response_length` (`src/cashless_device.rs` lines
110-147), arm for arm in source order.  In the source the three constants
`POLL_REPLY_REVALUE_APPROVED`, `POLL_REPLY_REVALUE_DENIED` and
`POLL_REPLY_REVALUE_LIMIT_AMOUNT` are all defined as `0x0F`, so the first
of the three match arms (value 1) is the one that fires for `0x0F` and no
arm at all exists for `0x0D` or `0x0E`; a first byte with no arm is
modelled as `none`. -/
def poll_response_length (fl : CashlessDeviceFeatureLevel) (poll_cmd : Nat) : Option Nat :=
  match poll_cmd with
  | 0x00 => some 8
  | 0x02 => some 34
  | 0x03 => some (match fl with | .level1 => 3 | _ => 10)
  | 0x04 => some 1
  | 0x05 => some 5
  | 0x06 => some 1
  | 0x07 => some 1
  | 0x08 => some 1
  | 0x09 => some (match fl with | .level3 => 34 | _ => 30)
  | 0x0A => some 2
  | 0x0B => some (match fl with | .level1 => 1 | _ => 2)
  | 0x0F => some 1
  | 0x11 => some 1
  | 0x12 => some 2
  | _ => none

/-- `CoinType` from `src/coin_acceptor.rs` (lines 58-64). -/
structure CoinType where
  unscaled_value : Nat
  routeable_to_tube : Bool
  tube_full : Bool
  num_coins : Nat
deriving DecidableEq, Repr

/-- The coin-type-table population loop inside `CoinAcceptor::init`
(`src/coin_acceptor.rs` lines 215-231): `index` enumerates the 16 credit
bytes, `tc` is the source's `type_count` write cursor, and a nonzero
credit byte writes a fresh slot at position `tc` (not at `index`), with
`routeable_to_tube` taken from bit `index` of the 16-bit routing mask. -/
def init_coin_types_go (scaling routing : Nat) :
    List Nat → Nat → Nat → List (Option CoinType) → List (Option CoinType)
  | [], _, _, types => types
  | byte :: rest, index, tc, types =>
    if byte ≠ 0 then
      init_coin_types_go scaling routing rest (index + 1) (tc + 1)
        (types.set tc (some ⟨byte * scaling, decide (routing &&& (1 <<< index) ≠ 0), false, 0⟩))
    else
      init_coin_types_go scaling routing rest (index + 1) tc types

/-- Coin-type table built by `CoinAcceptor::init` from a 23-byte SETUP
reply `buf` (`src/coin_acceptor.rs` lines 215-234): scaling factor is
`buf[3]`, the routing mask is `buf[5] << 8 | buf[6]`, the 16 credit bytes
are `buf[7..23]`. -/
def init_coin_types (buf : List Nat) : List (Option CoinType) :=
  init_coin_types_go (buf.getD 3 0) (((buf.getD 5 0) <<< 8) ||| buf.getD 6 0)
    ((buf.drop 7).take 16) 0 0 (List.replicate 16 none)

/-- Slot update loop of `CoinAcceptor::update_coin_counts`
(`src/coin_acceptor.rs` lines 323-338) on an 18-byte TUBE_STATUS buffer.
The source computes `tube_full_status = (buf[0] as u16) << 8 |
(buf[1] as u16) << 8` (both bytes shifted by 8), then for every present
slot `i` sets `num_coins = buf[i + 2]` and `tube_full` from bit `i` of
that value. -/
def update_coin_counts (types : List (Option CoinType)) (buf : List Nat) :
    List (Option CoinType) :=
  let tube_full_status := ((buf.getD 0 0) <<< 8) ||| ((buf.getD 1 0) <<< 8)
  (List.range 16).map (fun i =>
    match types.getD i none with
    | none => none
    | some ct =>
      some { ct with
              num_coins := buf.getD (i + 2) 0,
              tube_full := decide (tube_full_status &&& (1 <<< i) ≠ 0) })

/-- One link-layer exchange as the peripheral-protocol layer sees it: a
data frame that passed the checksum (with its payload bytes) or a status
token.  This is the abstraction of `Mdb::receive_response`'s result used
when modelling the coin-acceptor commands; a list of `BusReply` is the
trace of outcomes the bus delivers, consumed one per exchange. -/
inductive BusReply where
  | data (bytes : List Nat)
  | status (s : MDBStatus)
deriving DecidableEq, Repr

/-- Buffer contents of the local zero-initialised 18-byte buffer after the
TUBE_STATUS receive in `update_coin_counts`: a data reply fills its bytes
in (padded by the untouched zeros), an error status leaves the zeros
behind (the no-bytes case, e.g. `NoReply`). -/
def tube_status_buf : BusReply → List Nat
  | .data bytes => bytes.take 18 ++ List.replicate (18 - min bytes.length 18) 0
  | .status _ => List.replicate 18 0

/-- `CoinAcceptor::update_coin_counts` (`src/coin_acceptor.rs` lines
323-338) including its receive: the reply token `receive_response` returns
is bound to `reply_len` but never inspected, so the slot update runs on
the local buffer in every case. -/
def update_coin_counts_full (types : List (Option CoinType)) (reply : BusReply) :
    List (Option CoinType) :=
  update_coin_counts types (tube_status_buf reply)

/-- `ChangerStatus` from `src/coin_acceptor.rs` (lines 66-81). -/
inductive ChangerStatus where
  | escrowPressed
  | changerPayoutBusy
  | noCredit
  | defectiveTubeSensor
  | doubleArrival
  | acceptorUnplugged
  | tubeJam
  | romChecksumError
  | coinRoutingError
  | changerBusy
  | changerWasReset
  | coinJam
  | possibleCoinRemoval
deriving DecidableEq, Repr

/-- The `enumn`-derived `ChangerStatus::n` conversion: the discriminant
values declared in `src/coin_acceptor.rs` lines 66-81 (note the gap
between `0x09` and `0x10`). -/
def changer_status_n (b : Nat) : Option ChangerStatus :=
  match b with
  | 0x01 => some .escrowPressed
  | 0x02 => some .changerPayoutBusy
  | 0x03 => some .noCredit
  | 0x04 => some .defectiveTubeSensor
  | 0x05 => some .doubleArrival
  | 0x06 => some .acceptorUnplugged
  | 0x07 => some .tubeJam
  | 0x08 => some .romChecksumError
  | 0x09 => some .coinRoutingError
  | 0x10 => some .changerBusy
  | 0x11 => some .changerWasReset
  | 0x12 => some .coinJam
  | 0x13 => some .possibleCoinRemoval
  | _ => none

/-- `CoinRouting` from `src/coin_acceptor.rs` (lines 171-177). -/
inductive CoinRouting where
  | cashBox
  | tube
  | reject
  | unknown
deriving DecidableEq, Repr

/-- `CoinInsertedEvent` from `src/coin_acceptor.rs` (lines 145-151). -/
structure CoinInsertedEvent where
  coin_type : Nat
  unscaled_value : Nat
  routing : CoinRouting
  coins_remaining : Nat
deriving DecidableEq, Repr

/-- `ManualDispenseEvent` from `src/coin_acceptor.rs` (lines 153-159). -/
structure ManualDispenseEvent where
  coin_type : Nat
  unscaled_value : Nat
  number : Nat
  coins_remaining : Nat
deriving DecidableEq, Repr

/-- `PollEvent` from `src/coin_acceptor.rs` (lines 161-169). -/
inductive PollEvent where
  | slugCount (n : Nat)
  | status (s : ChangerStatus)
  | coin (e : CoinInsertedEvent)
  | manualDispense (e : ManualDispenseEvent)
deriving DecidableEq, Repr

/-- Table lookup used by the poll decoder: `self.coin_types[idx]` gives the
slot's `unscaled_value`, or 0 for a non-existent coin (logged and zeroed in
the source, `src/coin_acceptor.rs` lines 543-550). -/
def lookup_value (types : List (Option CoinType)) (idx : Nat) : Nat :=
  match types.getD idx none with
  | some ct => ct.unscaled_value
  | none => 0

/-- The `ParseState` enum declared inside `CoinAcceptor::poll`
(`src/coin_acceptor.rs` lines 504-508). -/
inductive ParseState where
  | noState
  | manualDispense (b : Nat)
  | coinDeposited (b : Nat)
deriving DecidableEq, Repr

/-- The byte-level state machine of `CoinAcceptor::poll`
(`src/coin_acceptor.rs` lines 509-590), accumulating events in wire
order.  In `NoState` a byte with bit 7 set opens a manual-dispense pair, a
byte with bit 6 set opens a coin-deposited pair, a byte with bit 5 set is
a one-byte slug count, anything else is looked up as a `ChangerStatus`
(unknown codes are logged and dropped); the pending-pair states emit their
event once the second byte arrives.  A pair left pending at the end of the
frame produces nothing. -/
def poll_loop (types : List (Option CoinType)) : List Nat → ParseState → List PollEvent
  | [], _ => []
  | b :: rest, st =>
    match st with
    | .noState =>
      if b &&& 0x80 = 0x80 then poll_loop types rest (.manualDispense b)
      else if b &&& 0x40 = 0x40 then poll_loop types rest (.coinDeposited b)
      else if b &&& 0x20 = 0x20 then
        .slugCount (b &&& 0x1F) :: poll_loop types rest .noState
      else
        match changer_status_n b with
        | some s => .status s :: poll_loop types rest .noState
        | none => poll_loop types rest .noState
    | .coinDeposited b0 =>
      .coin ⟨b0 &&& 0x0F, lookup_value types (b0 &&& 0x0F),
          (match b0 &&& 0x30 with
            | 0x00 => .cashBox
            | 0x10 => .tube
            | 0x30 => .reject
            | _ => .unknown), b⟩
        :: poll_loop types rest .noState
    | .manualDispense b0 =>
      .manualDispense ⟨b0 &&& 0x0F, lookup_value types (b0 &&& 0x0F), (b0 >>> 4) &&& 0x07, b⟩
        :: poll_loop types rest .noState

/-- The event list `CoinAcceptor::poll` extracts from the data bytes of a
poll reply (`src/coin_acceptor.rs` lines 496-591), starting in `NoState`. -/
def poll_decode (types : List (Option CoinType)) (bytes : List Nat) : List PollEvent :=
  poll_loop types bytes .noState

/-- Modelled from the spec's words for the coin-inserted routing: the
two-bit field in bits 4-5 of the first byte, `00` cash box, `01` tube,
`11` reject, otherwise unknown. -/
def coin_routing_of_bits (b0 : Nat) : CoinRouting :=
  match (b0 >>> 4) &&& 0x03 with
  | 0 => .cashBox
  | 1 => .tube
  | 3 => .reject
  | _ => .unknown

/-- Modelled from the spec's words (poll decoding, claim C6): classify each
starting byte by its top bits — `1xxxxxxx` opens a two-byte
manual-dispense event, `01xxxxxx` opens a two-byte coin-inserted event
with `coin_type = b0 & 0x0F` and routing from bits 4-5, `001xxxxx` is a
one-byte slug count `b0 & 0x1F`, and any other byte is a status event
(unknown status codes are dropped); events appear in wire order, an orphan
first byte at end of frame produces nothing. -/
def poll_decode_spec (types : List (Option CoinType)) : List Nat → List PollEvent
  | [] => []
  | b0 :: tail =>
    if b0 &&& 0x80 = 0x80 then
      match tail with
      | [] => []
      | b1 :: rest =>
        .manualDispense ⟨b0 &&& 0x0F, lookup_value types (b0 &&& 0x0F), (b0 >>> 4) &&& 0x07, b1⟩
          :: poll_decode_spec types rest
    else if b0 &&& 0xC0 = 0x40 then
      match tail with
      | [] => []
      | b1 :: rest =>
        .coin ⟨b0 &&& 0x0F, lookup_value types (b0 &&& 0x0F), coin_routing_of_bits b0, b1⟩
          :: poll_decode_spec types rest
    else if b0 &&& 0xE0 = 0x20 then
      .slugCount (b0 &&& 0x1F) :: poll_decode_spec types tail
    else
      match changer_status_n b0 with
      | some s => .status s :: poll_decode_spec types tail
      | none => poll_decode_spec types tail

/-- Rust run-time errors surfaced by the payout paths: a division by zero
panics, checked `u16` arithmetic over/underflows panic (debug profile),
and a bus that never delivers the awaited reply leaves the code looping
forever (`hang`). -/
inductive RunErr where
  | divByZero
  | overflow
  | hang
deriving DecidableEq, Repr

/-- The inner `while num_to_pay > 0` loop of `CoinAcceptor::payout_level2`
(`src/coin_acceptor.rs` lines 404-423) for slot `i` of coin value `value`.
Each iteration consumes one bus exchange from `oracle`: it computes
`num_to_dispense` (16-coin chunk), sends `DISPENSE` with the parameter
byte `i as u8 | num_to_pay << 4` (a `u8` shift, so `num_to_pay << 4`
truncates mod 256 — note the source uses `num_to_pay`, not
`num_to_dispense`, in the byte and in the credit), and on ACK adds
`value * num_to_pay` to `amount` (checked `u16`) and subtracts the chunk;
on any other reply it retries.  Returns the amount paid, the `DISPENSE`
frames sent, and the unconsumed oracle. -/
def dispense_loop (i value : Nat) :
    List BusReply → Nat → Nat → Except RunErr (Nat × List (List Nat) × List BusReply)
  | oracle, 0, amount => .ok (amount, [], oracle)
  | [], _ + 1, _ => .error .hang
  | r :: rest, ntp + 1, amount =>
    let ntd := if 16 < ntp + 1 then 16 else ntp + 1
    let b := (i % 256) ||| (((ntp + 1) <<< 4) % 256)
    if r = BusReply.status .ack then
      if 65536 ≤ amount + value * (ntp + 1) then .error .overflow
      else
        match dispense_loop i value rest (ntp + 1 - ntd) (amount + value * (ntp + 1)) with
        | .error e => .error e
        | .ok (a, sent, orc) => .ok (a, [0x0D, b] :: sent, orc)
    else
      match dispense_loop i value rest (ntp + 1) amount with
      | .error e => .error e
      | .ok (a, sent, orc) => .ok (a, [0x0D, b] :: sent, orc)

/-- The outer slot loop of `CoinAcceptor::payout_level2`
(`src/coin_acceptor.rs` lines 395-428) over the `(index, slot)` pairs in
iteration order (highest index first).  A present slot computes
`num_to_pay = ((credit - amount_paid) / unscaled_value) as u8` (checked
`u16` subtraction, then a truncating cast), clamps it to `num_coins`, and
runs the dispense loop; after every slot the loop stops once
`amount_paid == credit`. -/
def payout_slots (credit : Nat) :
    List (Nat × Option CoinType) → Nat → List BusReply →
    Except RunErr (Nat × List (List Nat) × List BusReply)
  | [], amount, oracle => .ok (amount, [], oracle)
  | (i, c) :: rest, amount, oracle =>
    let step : Except RunErr (Nat × List (List Nat) × List BusReply) :=
      match c with
      | none => .ok (amount, [], oracle)
      | some coin =>
        if credit < amount then .error .overflow
        else if coin.unscaled_value = 0 then .error .divByZero
        else
          let ntp0 := ((credit - amount) / coin.unscaled_value) % 256
          let ntp := if coin.num_coins < ntp0 then coin.num_coins else ntp0
          dispense_loop i coin.unscaled_value oracle ntp amount
    match step with
    | .error e => .error e
    | .ok (a, sent, orc) =>
      if a = credit then .ok (a, sent, orc)
      else
        match payout_slots credit rest a orc with
        | .error e => .error e
        | .ok (a2, sent2, orc2) => .ok (a2, sent ++ sent2, orc2)

/-- `CoinAcceptor::payout_level2` (`src/coin_acceptor.rs` lines 387-430):
iterate `self.coin_types.iter().enumerate().rev()`, starting with
`amount_paid = 0`. -/
def payout_level2 (types : List (Option CoinType)) (credit : Nat)
    (oracle : List BusReply) : Except RunErr (Nat × List (List Nat) × List BusReply) :=
  payout_slots credit types.enum.reverse 0 oracle

/-- The `while !complete` loop of `CoinAcceptor::payout_level3`
(`src/coin_acceptor.rs` lines 448-461): each iteration sends
`PAYOUT_VALUE_POLL` and consumes one reply; a data reply (progress bytes,
discarded) and any non-ACK status keep looping, an ACK completes.  Returns
the frames sent and the unconsumed oracle. -/
def l3_value_poll_loop : List BusReply → Except RunErr (List (List Nat) × List BusReply)
  | [] => .error .hang
  | r :: rest =>
    match r with
    | .data _ =>
      match l3_value_poll_loop rest with
      | .error e => .error e
      | .ok (sent, orc) => .ok ([0x0F, 0x04] :: sent, orc)
    | .status s =>
      if s = .ack then .ok ([[0x0F, 0x04]], rest)
      else
        match l3_value_poll_loop rest with
        | .error e => .error e
        | .ok (sent, orc) => .ok ([0x0F, 0x04] :: sent, orc)

/-- The `PAYOUT_STATUS` summation of `CoinAcceptor::payout_level3`
(`src/coin_acceptor.rs` lines 465-475): for each reply byte `b` at index
`i`, a present slot `i` adds `unscaled_value * b` to `amount_paid`
(checked `u16` multiply-and-add modelled as one overflow check); absent
slots are skipped. -/
def l3_status_sum_go (types : List (Option CoinType)) :
    List (Nat × Nat) → Nat → Except RunErr Nat
  | [], amount => .ok amount
  | (i, b) :: rest, amount =>
    match types.getD i none with
    | none => l3_status_sum_go types rest amount
    | some ct =>
      if 65536 ≤ amount + ct.unscaled_value * b then .error .overflow
      else l3_status_sum_go types rest (amount + ct.unscaled_value * b)

/-- `CoinAcceptor::payout_level3` (`src/coin_acceptor.rs` lines 432-479):
`credit_scaled = credit / scaling_factor` (a `u16` division that panics
when the scaling factor is 0); a quotient above 255 returns 0 before
anything is transmitted.  Otherwise the `PAYOUT` command is sent (its ACK
result is ignored; one exchange consumed), the value-poll loop runs until
an ACK, and the `PAYOUT_STATUS` reply bytes are summed against the
coin-type table (a status reply there leaves the amount at 0).  Returns
the amount paid, the frames sent, and the unconsumed oracle. -/
def payout_level3 (scaling : Nat) (types : List (Option CoinType)) (credit : Nat)
    (oracle : List BusReply) : Except RunErr (Nat × List (List Nat) × List BusReply) :=
  if scaling = 0 then .error .divByZero
  else
    let credit_scaled := credit / scaling
    if 255 < credit_scaled then .ok (0, [], oracle)
    else
      match oracle with
      | [] => .error .hang
      | _ :: rest =>
        match l3_value_poll_loop rest with
        | .error e => .error e
        | .ok (pollSent, rest2) =>
          match rest2 with
          | [] => .error .hang
          | r :: rest3 =>
            let sent := [0x0F, 0x02, credit_scaled % 256] :: pollSent ++ [[0x0F, 0x03]]
            match r with
            | .data bytes =>
              match l3_status_sum_go types bytes.enum 0 with
              | .error e => .error e
              | .ok amount => .ok (amount, sent, rest3)
            | .status _ => .ok (0, sent, rest3)

/-- A concrete 23-byte SETUP reply used to exercise `init_coin_types`:
feature level 3, country `0x0000`/`0x01`, scaling factor 1, 2 decimal
places, routing mask `0x0002`, credit bytes `[0x00, 0x05, 0, …]` (coin
type 0 absent, coin type 1 worth 5). -/
def c3_setup_reply : List Nat :=
  [0x03, 0x00, 0x01, 0x01, 0x02, 0x00, 0x02, 0x00, 0x05, 0, 0, 0, 0, 0, 0, 0, 0, 0, 0, 0, 0, 0, 0]

/-- A coin-type table with a single slot 0 worth 1 holding 16 coins, used
to exercise `payout_level2`. -/
def c4_coin_types : List (Option CoinType) :=
  some ⟨1, true, false, 16⟩ :: List.replicate 15 none

/-- An 18-byte TUBE_STATUS reply whose big-endian tube-full bitmap is
`0x0001` (bit 0 set, bit 8 clear) and whose per-slot counts are all 4. -/
def c7_tube_reply : List Nat := [0x00, 0x01] ++ List.replicate 16 4

/-- A coin-type table with slots 0 and 8 present, used to exercise
`update_coin_counts`. -/
def c7_coin_types : List (Option CoinType) :=
  [some ⟨10, true, false, 9⟩] ++ List.replicate 7 none ++
    [some ⟨20, true, false, 9⟩] ++ List.replicate 7 none

/-- Claim C1: the spec's poll-reply length table says `poll_response_length`
returns 1 for `0x00` (JUST_RESET), 3 for `0x05` (VEND_APPROVED), 1 for
`0x0D` (REVALUE_APPROVED), 1 for `0x0E` (REVALUE_DENIED) and 3 for `0x0F`
(REVALUE_LIMIT_AMOUNT), independently of the feature level.  The code
instead returns 8 for `0x00`, 5 for `0x05`, has no match arm at all for
`0x0D` and `0x0E` (all three REVALUE constants are defined as `0x0F`) and
returns 1 for `0x0F` — this theorem evaluates the embedded function at
those five first bytes for every feature level. -/
theorem poll_response_length_actual_values : ∀ fl,
    poll_response_length fl 0x00 = some 8 ∧ poll_response_length fl 0x05 = some 5 ∧
    poll_response_length fl 0x0D = none ∧ poll_response_length fl 0x0E = none ∧
    poll_response_length fl 0x0F = some 1 :=
  fun _ => ⟨rfl, rfl, rfl, rfl, rfl⟩

theorem send_data_go_false (rest : List Nat) : ∀ chk, chk < 256 →
    send_data_go false chk rest =
      rest.map (fun x => (0, x)) ++ [(0, (chk + rest.sum) % 256)] := by
  induction rest with
  | nil =>
    intro chk h
    simp [send_data_go, Nat.mod_eq_of_lt h]
  | cons b rest ih =>
    intro chk h
    simp only [send_data_go, ih ((chk + b) % 256) (Nat.mod_lt _ (by norm_num)),
      List.map_cons, List.sum_cons, List.cons_append]
    rw [Nat.mod_add_mod, Nat.add_assoc]
    simp

/-- Claim C2: for every payload of at least one byte, `send_data` transmits
byte 0 with mode bit 1, the remaining payload bytes with mode bit 0, and
then exactly one extra byte with mode bit 0 whose value is the sum of the
payload bytes modulo 256 (the mode bits are not part of the sum). -/
theorem send_data_frames_and_checksum (b : Nat) (rest : List Nat) :
    send_data (b :: rest) =
      (1, b) :: rest.map (fun x => (0, x)) ++ [(0, (b :: rest).sum % 256)] := by
  simp only [send_data, send_data_go,
    send_data_go_false rest ((0 + b) % 256) (Nat.mod_lt _ (by norm_num)),
    List.sum_cons, if_pos rfl]
  rw [Nat.zero_add, Nat.mod_add_mod]
  simp

/-- Claim C3 (refuting evaluation): the claim says slot `i` of the table
built from a SETUP reply is present if and only if credit byte `i` (reply
byte `7 + i`) is nonzero, slot indices matching the coin types reported at
SETUP.  On `c3_setup_reply` credit byte 0 is zero and credit byte 1 is 5,
yet the code's `type_count` write cursor compacts the table: slot 0 is
present (holding coin type 1's value `5 × scaling = 5` and coin type 1's
routing bit) and slot 1 is absent — the opposite of the claim. -/
theorem init_coin_types_compacts_slots :
    c3_setup_reply.length = 23 ∧
    c3_setup_reply.getD 7 0 = 0 ∧ c3_setup_reply.getD 8 0 = 5 ∧
    (init_coin_types c3_setup_reply).getD 0 none = some ⟨5, true, false, 0⟩ ∧
    (init_coin_types c3_setup_reply).getD 1 none = none :=
  ⟨rfl, rfl, rfl, rfl, rfl⟩

/-- Claim C4 (refuting evaluation): the claim says `payout_level2` computes
`num_to_pay = min(remaining / value, num_coins, 15)` and sends DISPENSE
with parameter byte `(num_to_pay << 4) | slot_index`, returning the sum of
ACKed dispensed value.  On a slot of value 1 holding 16 coins and a
request of 16, the code computes `num_to_pay = 16` (there is no min
with 15), so the single ACKed DISPENSE carries the parameter byte
`(16 << 4) % 256 | 0 = 0x00` — an order to dispense zero coins — while the
function still returns 16.  The claim would require the byte `0xF0`
(15 coins) and a return equal to the dispensed value. -/
theorem payout_level2_dispense_byte_wraps :
    payout_level2 c4_coin_types 16 [.status .ack] = .ok (16, [[0x0D, 0x00]], []) := rfl

/-- Claim C5 (refuting evaluation): the claim says a reply of at least one
payload byte returns `Data` with the payload length plus a transmitted ACK
when the final (EOM) byte equals the running checksum, and
`StatusMsg(ChecksumErr)` with nothing transmitted when it differs.  The
code instead buffers and checksums the mode bytes and decides on the EOM
mode byte `0x01`, never reading the frame's checksum byte.  First
conjunct: the well-formed frame for payload `[1, 2]` with its correct
checksum byte 3 (physical bytes `00 01 00 02 01 03`) is rejected with
`ChecksumErr` (running sum `0+1+0+2 = 3 ≠ 0x01`), nothing transmitted,
the buffer holding the four mode-interleaved bytes.  Second conjunct: the
frame for payload `[1]` with the WRONG checksum byte `0xFF` (physical
`00 01 01 FF`) is accepted — running sum `0+1 = 0x01` matches the mode
byte — as `Data 2` (double-counted length) with an ACK transmitted.
Third conjunct: a lone ACK (physical `01 00`) returns `Invalid`, because
the byte fed to `MDBStatus::n` is the mode byte `0x01` (`NoReply`), so
the ACK/NAK return path is unreachable. -/
theorem receive_response_compares_mode_byte :
    receive_response 32 [0x00, 0x01, 0x00, 0x02, 0x01, 0x03] =
      ⟨.statusMsg .checksumErr, [0x00, 0x01, 0x00, 0x02], []⟩ ∧
    receive_response 32 [0x00, 0x01, 0x01, 0xFF] =
      ⟨.data 2, [0x00, 0x01], send_status_message .ack⟩ ∧
    receive_response 32 [0x01, 0x00] = ⟨.statusMsg .invalid, [], []⟩ :=
  ⟨rfl, rfl, rfl⟩

set_option maxRecDepth 4096 in
theorem byte_class_facts :
    ∀ b < 256,
      (¬ b &&& 0x80 = 0x80 → ((b &&& 0x40 = 0x40) ↔ (b &&& 0xC0 = 0x40))) ∧
      (¬ b &&& 0x80 = 0x80 → ¬ b &&& 0x40 = 0x40 →
        ((b &&& 0x20 = 0x20) ↔ (b &&& 0xE0 = 0x20))) ∧
      ((match b &&& 0x30 with
        | 0x00 => CoinRouting.cashBox
        | 0x10 => CoinRouting.tube
        | 0x30 => CoinRouting.reject
        | _ => CoinRouting.unknown) = coin_routing_of_bits b) := by
  decide

theorem poll_loop_cons_noState (types : List (Option CoinType)) (b : Nat) (rest : List Nat) :
    poll_loop types (b :: rest) .noState =
      if b &&& 0x80 = 0x80 then poll_loop types rest (.manualDispense b)
      else if b &&& 0x40 = 0x40 then poll_loop types rest (.coinDeposited b)
      else if b &&& 0x20 = 0x20 then
        .slugCount (b &&& 0x1F) :: poll_loop types rest .noState
      else
        match changer_status_n b with
        | some s => .status s :: poll_loop types rest .noState
        | none => poll_loop types rest .noState := rfl

theorem poll_loop_cons_md (types : List (Option CoinType)) (b0 b : Nat) (rest : List Nat) :
    poll_loop types (b :: rest) (.manualDispense b0) =
      .manualDispense ⟨b0 &&& 0x0F, lookup_value types (b0 &&& 0x0F), (b0 >>> 4) &&& 0x07, b⟩
        :: poll_loop types rest .noState := rfl

theorem poll_loop_cons_cd (types : List (Option CoinType)) (b0 b : Nat) (rest : List Nat) :
    poll_loop types (b :: rest) (.coinDeposited b0) =
      .coin ⟨b0 &&& 0x0F, lookup_value types (b0 &&& 0x0F),
          (match b0 &&& 0x30 with
            | 0x00 => .cashBox
            | 0x10 => .tube
            | 0x30 => .reject
            | _ => .unknown), b⟩
        :: poll_loop types rest .noState := rfl

theorem poll_decode_spec_one (types : List (Option CoinType)) (b0 : Nat) :
    poll_decode_spec types [b0] =
      (if b0 &&& 0x80 = 0x80 then []
      else if b0 &&& 0xC0 = 0x40 then []
      else if b0 &&& 0xE0 = 0x20 then [.slugCount (b0 &&& 0x1F)]
      else
        match changer_status_n b0 with
        | some s => [.status s]
        | none => []) := rfl

theorem poll_decode_spec_two (types : List (Option CoinType)) (b0 b1 : Nat)
    (rest : List Nat) :
    poll_decode_spec types (b0 :: b1 :: rest) =
      (if b0 &&& 0x80 = 0x80 then
        .manualDispense ⟨b0 &&& 0x0F, lookup_value types (b0 &&& 0x0F), (b0 >>> 4) &&& 0x07, b1⟩
          :: poll_decode_spec types rest
      else if b0 &&& 0xC0 = 0x40 then
        .coin ⟨b0 &&& 0x0F, lookup_value types (b0 &&& 0x0F), coin_routing_of_bits b0, b1⟩
          :: poll_decode_spec types rest
      else if b0 &&& 0xE0 = 0x20 then
        .slugCount (b0 &&& 0x1F) :: poll_decode_spec types (b1 :: rest)
      else
        match changer_status_n b0 with
        | some s => .status s :: poll_decode_spec types (b1 :: rest)
        | none => poll_decode_spec types (b1 :: rest)) := rfl

/-- Claim C6: the events `CoinAcceptor::poll` extracts coincide, on every
byte stream of a coin-acceptor poll data reply, with the spec's
classification of each starting byte by its top bits (`1xxxxxxx` two-byte
manual dispense, `01xxxxxx` two-byte coin-inserted with
`coin_type = b0 & 0x0F` and routing from bits 4-5, `001xxxxx` one-byte
slug count `b0 & 0x1F`, otherwise a status byte), with events delivered in
wire order. -/
theorem poll_decode_matches_spec (types : List (Option CoinType)) (bytes : List Nat)
    (hb : ∀ b ∈ bytes, b < 256) :
    poll_decode types bytes = poll_decode_spec types bytes := by
  suffices hsuff : ∀ n (l : List Nat), l.length ≤ n → (∀ b ∈ l, b < 256) →
      poll_loop types l .noState = poll_decode_spec types l by
    exact hsuff bytes.length bytes le_rfl hb
  intro n
  induction n with
  | zero =>
    intro l hl _
    rw [Nat.le_zero, List.length_eq_zero] at hl
    subst hl
    rfl
  | succ n ih =>
    intro l hl hbl
    match l with
    | [] => rfl
    | b0 :: tail =>
      have hb0 : b0 < 256 := hbl b0 (List.mem_cons_self _ _)
      obtain ⟨h1, h2, h3⟩ := byte_class_facts b0 hb0
      have htl : tail.length ≤ n := by
        simp at hl
        omega
      have hbt : ∀ b ∈ tail, b < 256 := fun b hbm => hbl b (List.mem_cons_of_mem _ hbm)
      cases tail with
      | nil =>
        rw [poll_loop_cons_noState, poll_decode_spec_one]
        by_cases hmd : b0 &&& 0x80 = 0x80
        · rw [if_pos hmd, if_pos hmd]
          rfl
        · rw [if_neg hmd, if_neg hmd]
          by_cases hcd : b0 &&& 0x40 = 0x40
          · rw [if_pos hcd, if_pos ((h1 hmd).mp hcd)]
            rfl
          · rw [if_neg hcd, if_neg (fun hc => hcd ((h1 hmd).mpr hc))]
            by_cases hsl : b0 &&& 0x20 = 0x20
            · rw [if_pos hsl, if_pos ((h2 hmd hcd).mp hsl)]
              rfl
            · rw [if_neg hsl, if_neg (fun hc => hsl ((h2 hmd hcd).mpr hc))]
              cases hst : changer_status_n b0 <;> simp only [hst] <;> rfl
      | cons b1 rest =>
        have hrl : rest.length ≤ n := by
          simp at htl
          omega
        have hbr : ∀ b ∈ rest, b < 256 := fun b hbm => hbt b (List.mem_cons_of_mem _ hbm)
        rw [poll_loop_cons_noState, poll_decode_spec_two]
        by_cases hmd : b0 &&& 0x80 = 0x80
        · rw [if_pos hmd, if_pos hmd, poll_loop_cons_md, ih rest hrl hbr]
        · rw [if_neg hmd, if_neg hmd]
          by_cases hcd : b0 &&& 0x40 = 0x40
          · rw [if_pos hcd, if_pos ((h1 hmd).mp hcd), poll_loop_cons_cd, h3,
              ih rest hrl hbr]
          · rw [if_neg hcd, if_neg (fun hc => hcd ((h1 hmd).mpr hc))]
            by_cases hsl : b0 &&& 0x20 = 0x20
            · rw [if_pos hsl, if_pos ((h2 hmd hcd).mp hsl), ih (b1 :: rest) htl hbt]
            · rw [if_neg hsl, if_neg (fun hc => hsl ((h2 hmd hcd).mpr hc))]
              cases hst : changer_status_n b0 <;> simp only [hst] <;>
                rw [ih (b1 :: rest) htl hbt]

/-- Witness for C6: a concrete frame holding a manual dispense, a coin
insertion, a slug count and a status byte decodes identically under the
code's state machine and the spec's classification. -/
theorem poll_decode_matches_spec_witness :
    poll_decode [some ⟨5, true, false, 3⟩] [0x8C, 0x03, 0x46, 0x0A, 0x23, 0x01] =
      poll_decode_spec [some ⟨5, true, false, 3⟩] [0x8C, 0x03, 0x46, 0x0A, 0x23, 0x01] :=
  poll_decode_matches_spec [some ⟨5, true, false, 3⟩] [0x8C, 0x03, 0x46, 0x0A, 0x23, 0x01]
    (by decide)

/-- Claim C7 (refuting evaluation): the claim says the tube-status refresh
sets each existing slot's `tube_full` to bit `i` of the 16-bit bitmap in
reply bytes 0..2.  On `c7_tube_reply` that bitmap is `0x0001` (bit 0 set,
bit 8 clear), yet the code — which computes
`(buf[0] as u16) << 8 | (buf[1] as u16) << 8`, shifting both bytes — marks
slot 0 not full and slot 8 full.  The per-slot counts (`num_coins = 4`)
are taken from bytes 2..18 as claimed. -/
theorem update_coin_counts_shifts_both_bytes :
    c7_tube_reply.getD 0 0 = 0 ∧ c7_tube_reply.getD 1 0 = 1 ∧
    (update_coin_counts c7_coin_types c7_tube_reply).getD 0 none =
      some ⟨10, true, false, 4⟩ ∧
    (update_coin_counts c7_coin_types c7_tube_reply).getD 8 none =
      some ⟨20, true, true, 4⟩ :=
  ⟨rfl, rfl, rfl, rfl⟩

/-- Claim C8: whenever the requested credit divided by the scaling factor
exceeds 255, `payout_level3` returns 0 and transmits nothing on the bus
(the oracle is left untouched). -/
theorem payout_level3_over_limit (scaling : Nat) (types : List (Option CoinType))
    (credit : Nat) (oracle : List BusReply) (h : 255 < credit / scaling) :
    payout_level3 scaling types credit oracle = .ok (0, [], oracle) := by
  have hs : scaling ≠ 0 := by
    intro h0
    rw [h0, Nat.div_zero] at h
    omega
  simp [payout_level3, hs, h]

/-- Witness for C8: a request of 256 at scaling factor 1 exceeds the limit
and the payout returns 0 with no frame transmitted. -/
theorem payout_level3_over_limit_witness :
    255 < 256 / 1 ∧ payout_level3 1 [] 256 [] = .ok (0, [], []) :=
  ⟨by decide, payout_level3_over_limit 1 [] 256 [] (by decide)⟩

theorem dispense_loop_no_div :
    ∀ (oracle : List BusReply) (i value ntp amount : Nat),
      dispense_loop i value oracle ntp amount ≠ .error .divByZero := by
  intro oracle
  induction oracle with
  | nil =>
    intro i value ntp amount
    cases ntp <;> simp [dispense_loop]
  | cons r rest ih =>
    intro i value ntp amount
    cases ntp with
    | zero => simp [dispense_loop]
    | succ m =>
      simp only [dispense_loop]
      split
      · split
        · simp
        · split
          · next e heq =>
            intro hcontra
            injection hcontra with h'
            rw [h'] at heq
            exact ih i value _ _ heq
          · simp
      · split
        · next e heq =>
          intro hcontra
          injection hcontra with h'
          rw [h'] at heq
          exact ih i value _ _ heq
        · simp

theorem payout_slots_no_div :
    ∀ (slots : List (Nat × Option CoinType)) (credit amount : Nat) (oracle : List BusReply),
      (∀ p ∈ slots, ∀ coin, p.2 = some coin → coin.unscaled_value ≠ 0) →
      payout_slots credit slots amount oracle ≠ .error .divByZero := by
  intro slots
  induction slots with
  | nil =>
    intro credit amount oracle _
    simp [payout_slots]
  | cons p rest ih =>
    intro credit amount oracle hinv
    obtain ⟨i, c⟩ := p
    have hrest : ∀ p ∈ rest, ∀ coin, p.2 = some coin → coin.unscaled_value ≠ 0 :=
      fun p hp => hinv p (List.mem_cons_of_mem _ hp)
    simp only [payout_slots]
    have hstep : (match c with
        | none => Except.ok (amount, [], oracle)
        | some coin =>
          if credit < amount then Except.error RunErr.overflow
          else if coin.unscaled_value = 0 then Except.error RunErr.divByZero
          else
            let ntp0 := ((credit - amount) / coin.unscaled_value) % 256
            let ntp := if coin.num_coins < ntp0 then coin.num_coins else ntp0
            dispense_loop i coin.unscaled_value oracle ntp amount) ≠
          Except.error RunErr.divByZero := by
      match c with
      | none => simp
      | some coin =>
        have hnz : coin.unscaled_value ≠ 0 :=
          hinv (i, some coin) (List.mem_cons_self _ _) coin rfl
        simp only [if_neg hnz]
        split
        · simp
        · exact dispense_loop_no_div oracle i coin.unscaled_value _ amount
    split
    · next e heq =>
      intro hcontra
      injection hcontra with h'
      rw [h'] at heq
      exact hstep heq
    · next a sent orc heq =>
      split
      · simp
      · split
        · next e heq2 =>
          intro hcontra
          injection hcontra with h'
          rw [h'] at heq2
          exact ih credit a orc hrest heq2
        · simp

theorem l3_value_poll_loop_no_div :
    ∀ oracle : List BusReply, l3_value_poll_loop oracle ≠ .error .divByZero := by
  intro oracle
  induction oracle with
  | nil => simp [l3_value_poll_loop]
  | cons r rest ih =>
    cases r with
    | data bytes =>
      rcases hres : l3_value_poll_loop rest with e | pr
      · simp only [l3_value_poll_loop, hres]
        intro hc
        injection hc with h'
        rw [h'] at hres
        exact ih hres
      · obtain ⟨sent, orc⟩ := pr
        simp [l3_value_poll_loop, hres]
    | status s =>
      by_cases hs : s = MDBStatus.ack
      · simp [l3_value_poll_loop, hs]
      · rcases hres : l3_value_poll_loop rest with e | pr
        · simp only [l3_value_poll_loop, hres, if_neg hs]
          intro hc
          injection hc with h'
          rw [h'] at hres
          exact ih hres
        · obtain ⟨sent, orc⟩ := pr
          simp [l3_value_poll_loop, hres, hs]

theorem l3_status_sum_go_no_div (types : List (Option CoinType)) :
    ∀ (l : List (Nat × Nat)) (amount : Nat),
      l3_status_sum_go types l amount ≠ .error .divByZero := by
  intro l
  induction l with
  | nil =>
    intro amount
    simp [l3_status_sum_go]
  | cons p rest ih =>
    intro amount
    obtain ⟨i, b⟩ := p
    rcases hty : types.getD i none with _ | ct
    · simp only [l3_status_sum_go, hty]
      exact ih amount
    · simp only [l3_status_sum_go, hty]
      split
      · simp
      · exact ih _

theorem payout_level3_no_div (scaling : Nat) (types : List (Option CoinType))
    (credit : Nat) (oracle : List BusReply) (hs : scaling ≠ 0) :
    payout_level3 scaling types credit oracle ≠ .error .divByZero := by
  simp only [payout_level3, if_neg hs]
  split
  · simp
  · match oracle with
    | [] => simp
    | r0 :: rest =>
      rcases hpoll : l3_value_poll_loop rest with e | pr
      · simp only [hpoll]
        intro hc
        injection hc with h'
        rw [h'] at hpoll
        exact l3_value_poll_loop_no_div rest hpoll
      · obtain ⟨pollSent, rest2⟩ := pr
        simp only [hpoll]
        match rest2 with
        | [] => simp
        | r :: rest3 =>
          cases r with
          | data bytes =>
            rcases hsum : l3_status_sum_go types bytes.enum 0 with e | amt
            · simp only [hsum]
              intro hc
              injection hc with h'
              rw [h'] at hsum
              exact l3_status_sum_go_no_div types bytes.enum 0 hsum
            · simp [hsum]
          | status s => simp

theorem init_coin_types_go_nonzero (scaling routing : Nat) :
    ∀ (credits : List Nat) (index tc : Nat) (types : List (Option CoinType)),
      1 ≤ scaling →
      (∀ x ∈ types, ∀ c, x = some c → c.unscaled_value ≠ 0) →
      ∀ x ∈ init_coin_types_go scaling routing credits index tc types,
        ∀ c, x = some c → c.unscaled_value ≠ 0 := by
  intro credits
  induction credits with
  | nil =>
    intro index tc types _ hinv
    simpa [init_coin_types_go] using hinv
  | cons byte rest ih =>
    intro index tc types hs hinv
    simp only [init_coin_types_go]
    split
    · next hbz =>
      refine ih (index + 1) (tc + 1) _ hs ?_
      intro x hx c hcx
      rcases List.mem_or_eq_of_mem_set hx with hmem | hnew
      · exact hinv x hmem c hcx
      · subst hnew
        injection hcx with h'
        subst h'
        exact Nat.mul_ne_zero hbz (by omega)
    · exact ih (index + 1) tc types hs hinv

/-- Claim C9: the payout paths are total only when the device-reported
scaling factor is nonzero.  (1) `payout_level3` divides the requested
credit by a scaling factor of 0 with no zero guard (the division-by-zero
panic).  (2) `payout_level2` divides the remaining owed amount by a slot's
`unscaled_value` with no zero guard, so a zero-valued slot — exactly what
`init` builds when the scaling factor is 0 — panics.  (3) With a scaling
factor of at least 1 `payout_level3` never reaches a division by zero;
(4) the table `init` builds from a SETUP reply with scaling ≥ 1 has no
zero-valued slot, and (5) on any such table `payout_level2` never reaches
a division by zero either. -/
theorem payout_division_totality :
    (∀ (types : List (Option CoinType)) (credit : Nat) (oracle : List BusReply),
      payout_level3 0 types credit oracle = .error .divByZero) ∧
    (payout_level2 (some ⟨0, false, false, 3⟩ :: List.replicate 15 none) 5 [] =
      .error .divByZero) ∧
    (∀ (scaling : Nat) (types : List (Option CoinType)) (credit : Nat)
        (oracle : List BusReply), 1 ≤ scaling →
      payout_level3 scaling types credit oracle ≠ .error .divByZero) ∧
    (∀ buf : List Nat, 1 ≤ buf.getD 3 0 →
      (init_coin_types buf).all (fun x => x.all (fun c => c.unscaled_value != 0)) = true) ∧
    (∀ (types : List (Option CoinType)) (credit : Nat) (oracle : List BusReply),
      types.all (fun x => x.all (fun c => c.unscaled_value != 0)) = true →
      payout_level2 types credit oracle ≠ .error .divByZero) := by
  refine ⟨fun types credit oracle => rfl, rfl, ?_, ?_, ?_⟩
  · intro scaling types credit oracle hs
    exact payout_level3_no_div scaling types credit oracle (by omega)
  · intro buf hs
    rw [List.all_eq_true]
    intro x hx
    have hmem := init_coin_types_go_nonzero (buf.getD 3 0)
      (((buf.getD 5 0) <<< 8) ||| buf.getD 6 0) ((buf.drop 7).take 16) 0 0
      (List.replicate 16 none) hs
      (by
        intro y hy c hyc
        rw [List.eq_of_mem_replicate hy] at hyc
        cases hyc)
      x hx
    cases x with
    | none => rfl
    | some c =>
      simp only [Option.all]
      simpa using hmem c rfl
  · intro types credit oracle hall
    rw [List.all_eq_true] at hall
    apply payout_slots_no_div
    intro p hp coin hpc
    rw [List.mem_reverse] at hp
    have hsnd : p.2 ∈ types := by
      obtain ⟨i, x⟩ := p
      have := List.mem_enum_iff_get?.mp hp
      simp only at this ⊢
      exact List.get?_mem this
    have := hall p.2 hsnd
    rw [hpc] at this
    simpa using this

/-- Witness for C9: concrete instantiations of the guarded parts — a
scaling factor of 2 never divides by zero on `payout_level3`, a short
SETUP reply with scaling 1 yields a table with no zero-valued slot, and
`payout_level2` on the empty table never divides by zero. -/
theorem payout_division_totality_witness :
    payout_level3 2 [] 7 [] ≠ .error .divByZero ∧
    (init_coin_types [0, 0, 0, 1]).all (fun x => x.all (fun c => c.unscaled_value != 0)) =
      true ∧
    payout_level2 [] 3 [] ≠ .error .divByZero :=
  ⟨payout_division_totality.2.2.1 2 [] 7 [] (by decide),
    payout_division_totality.2.2.2.1 [0, 0, 0, 1] (by decide),
    payout_division_totality.2.2.2.2 [] 3 [] (by decide)⟩

theorem tube_status_buf_status_getD (s : MDBStatus) :
    ∀ j : Nat, ((tube_status_buf (BusReply.status s)).get? j).getD 0 = 0 := by
  intro j
  show ((List.replicate 18 (0 : Nat)).get? j).getD 0 = 0
  rw [List.get?_eq_getElem?, List.getElem?_replicate]
  split <;> rfl

/-- Claim C10: `update_coin_counts` is not atomic on error — whatever
status `receive_response` returns (the token is bound but never
inspected), every existing slot's `num_coins` and `tube_full` are
overwritten from the local zero-initialised reply buffer (so to 0 and
`false` when no bytes arrived) instead of being left unchanged; absent
slots stay absent. -/
theorem update_coin_counts_overwrites_on_error (types : List (Option CoinType))
    (s : MDBStatus) (i : Nat) (h : i < 16) :
    (types.getD i none = none →
      (update_coin_counts_full types (.status s)).getD i none = none) ∧
    (∀ c, types.getD i none = some c →
      (update_coin_counts_full types (.status s)).getD i none =
        some ⟨c.unscaled_value, c.routeable_to_tube, false, 0⟩) := by
  have h18 := tube_status_buf_status_getD s
  have hmap : (update_coin_counts_full types (.status s)).getD i none =
      (match types.getD i none with
        | none => none
        | some ct => some { ct with num_coins := 0, tube_full := false }) := by
    simp only [update_coin_counts_full, update_coin_counts, List.getD]
    rw [List.get?_map, List.get?_range h]
    simp only [Option.map_some', Option.getD_some, h18]
    simp [Nat.zero_shiftLeft, Nat.zero_and]
  constructor
  · intro hnone
    rw [hmap, hnone]
  · intro c hc
    rw [hmap, hc]

/-- Witness for C10: a table whose slot 0 holds 7 coins with the tube-full
flag set comes back from an errored refresh with 0 coins and the flag
cleared — overwritten, not left unchanged. -/
theorem update_coin_counts_overwrites_on_error_witness :
    (update_coin_counts_full [some ⟨10, true, true, 7⟩] (.status .noReply)).getD 0 none =
      some ⟨10, true, false, 0⟩ :=
  (update_coin_counts_overwrites_on_error [some ⟨10, true, true, 7⟩] .noReply 0
    (by decide)).2 ⟨10, true, true, 7⟩ rfl
